import Mathlib

/-!
Verification of the copeer bulk-migration engine (src/copeer.py, src/copeer_lite.py,
src/copeer_rich_TUI.py, src/copeer_auditor.py) against its natural-language
specification.

The Python sources are shallowly embedded: pure helpers become Lean functions over
`List Char` / `List String`; Python dicts (which preserve insertion order) become
association lists; Python sets, whose iteration order is unspecified across runs,
become lists consumed through an explicit enumeration parameter; the log files
become a map from filename to the list of appended rows.  Functions from the
Python standard library that the claims do not constrain internally
(`os.path.normpath`, `pathlib.Path.parent/name`, `int(...)`, `int(float(...))`,
and the Unicode part of the regex class `\w`) are oracle parameters of the
embedding, so every theorem below holds for all of their behaviours.
-/

namespace Copeer

/-! ## Python string primitives -/

/-- Whitespace characters removed by Python `str.strip()` (ASCII range). -/
def pyIsSpace (c : Char) : Bool :=
  c = ' ' || c = '\t' || c = '\n' || c = '\r' || c = '\x0b' || c = '\x0c'

/-- List-level `str.strip()`. -/
def pyStripL (cs : List Char) : List Char :=
  ((cs.dropWhile pyIsSpace).reverse.dropWhile pyIsSpace).reverse

/-- Python `str.strip()`. -/
def pyStrip (s : String) : String := String.mk (pyStripL s.toList)

/-- Pointwise character substitution performed by `size_str.replace(",", ".")`:
a one-character pattern and replacement make `str.replace` a per-character map. -/
def commaToDot (c : Char) : Char := if c = ',' then '.' else c

/-- Python `s.replace(",", ".")`. -/
def replaceCommaDot (s : String) : String := String.mk (s.toList.map commaToDot)

/-- Test `'E' in s.upper()`: a character contributes iff it uppercases to `E`,
i.e. (in the ASCII model of `str.upper`) iff it is `E` or `e`. -/
def hasE (s : String) : Bool := s.toList.any (fun c => c.toUpper = 'E')

/-- Python `str.lower()` (ASCII model; only applied to `[a-zA-Z0-9]+` regex
captures below, which are ASCII). -/
def pyToLower (s : String) : String := String.mk (s.toList.map Char.toLower)

/-- Zero-padding of `f-string` format `{n:04d}` for a naturals. -/
def pad4 (n : Nat) : String :=
  let s := toString n
  if s.length < 4 then String.mk (List.replicate (4 - s.length) '0') ++ s else s

/-- Python `os.path.join(d, f)` for a non-absolute second component (all joined
names below are plain filenames). -/
def pyJoin (d f : String) : String :=
  if d = "" then f
  else if d.toList.getLast? = some '/' then d ++ f
  else d ++ "/" ++ f

/-- Lexicographic code-point comparison of character lists, the order Python
uses to compare strings. -/
def lexLt : List Char → List Char → Bool
  | [], [] => false
  | [], _ :: _ => true
  | _ :: _, [] => false
  | a :: as, b :: bs =>
    if a.toNat < b.toNat then true
    else if b.toNat < a.toNat then false
    else lexLt as bs

/-- Python `<` on strings. -/
def pyStrLt (a b : String) : Bool := lexLt a.toList b.toList

/-- Substring containment, Python `pat in hay`. -/
def containsSub (hay pat : String) : Bool :=
  (hay.toList.tails).any (fun t => pat.toList.isPrefixOf t)

/-! ## The sequence regex

`SEQUENCE_RE = ^(.*?)[\._]*(\d+)\.([a-zA-Z0-9]+)$` (identical in copeer.py,
copeer_lite.py and copeer_rich_TUI.py).  Because the extension group is a
nonempty alphanumeric run anchored at the end, it is exactly the text after the
final dot; the digit group immediately precedes that dot; the lazy first group
makes the matched split the one with the shortest possible leading group,
the separator run `[\._]*` soaking up any `.`/`_` characters in between. -/

/-- Characters matched by the separator class `[\._]`. -/
def isSepChar (c : Char) : Bool := c = '.' || c = '_'

/-- Decimal value of a digit string, Python `int` on a `\d+` capture. -/
def digitsToNat (cs : List Char) : Nat :=
  cs.foldl (fun a c => a * 10 + (c.toNat - 48)) 0

/-- Does a suffix of the stem have the shape `[\._]*\d+` (to its end)? -/
def tailOk (t : List Char) : Bool :=
  let r := t.dropWhile isSepChar
  !r.isEmpty && r.all Char.isDigit

/-- Shortest-leading-group split of the stem into `(.*?)` and `[\._]*\d+`,
mirroring the lazy `(.*?)` of the regex. -/
def splitPre : List Char → Option (List Char × List Char)
  | [] => none
  | c :: rest =>
    if tailOk (c :: rest) then some ([], c :: rest)
    else (splitPre rest).map (fun pr => (c :: pr.1, pr.2))

/-- Split a filename at its final dot into stem and extension candidate. -/
def splitLastDot (cs : List Char) : Option (List Char × List Char) :=
  let r := cs.reverse
  let extRev := r.takeWhile (fun c => c ≠ '.')
  if extRev.length = cs.length then none
  else some ((r.drop (extRev.length + 1)).reverse, extRev.reverse)

/-- Full match of `SEQUENCE_RE` against a filename, returning the three
captures (leading group, frame number, extension). -/
def matchSeqRE (name : String) : Option (String × Nat × String) :=
  match splitLastDot name.toList with
  | none => none
  | some (stem, ext) =>
    if !ext.isEmpty && ext.all Char.isAlphanum then
      match splitPre stem with
      | none => none
      | some (pre, tl) =>
        some (String.mk pre, digitsToNat (tl.dropWhile isSepChar), String.mk ext)
    else none

/-! ## Sequence detection (`find_sequences`) -/

/-- Python `\w` for one character: on ASCII exactly `[A-Za-z0-9_]`; for
non-ASCII characters Python consults Unicode word-character tables, which the
embedding abstracts as the oracle `uw` (no theorem below depends on it). -/
def pyIsWordChar (uw : Char → Bool) (c : Char) : Bool :=
  if c.toNat < 128 then c.isAlphanum || c = '_' else uw c

/-- The `safe_prefix` computation `re.sub(r'[^\w\.\-]', '_', prefix.strip())`
of find_sequences. -/
def safePre (uw : Char → Bool) (s : String) : String :=
  String.mk ((pyStrip s).toList.map
    (fun c => if pyIsWordChar uw c || c = '.' || c = '-' then c else '_'))

/-- Tar filename `f"(safe_prefix).(min:04d)-(max:04d).(ext).tar"`. -/
def mkTarName (sp : String) (mn mx : Nat) (ext : String) : String :=
  sp ++ "." ++ pad4 mn ++ "-" ++ pad4 mx ++ "." ++ ext ++ ".tar"

/-- Tuples `(frame, full_path, size)` collected per group. -/
abbrev Trip := Nat × String × Int

/-- Python tuple `<=` on `(int, str, int)` triples (lexicographic). -/
def tupLeB (a b : Trip) : Bool :=
  if a.1 ≠ b.1 then decide (a.1 < b.1)
  else if a.2.1 ≠ b.2.1 then pyStrLt a.2.1 b.2.1
  else decide (a.2.2 ≤ b.2.2)

/-- Relation form of `tupLeB` for `List.insertionSort`. -/
abbrev tupRel (a b : Trip) : Prop := tupLeB a b = true

/-- Python `file_tuples.sort()`: a stable sort by the total tuple order; any
stable sort agrees with it, here insertion sort. -/
def sortTuples (ts : List Trip) : List Trip := List.insertionSort tupRel ts

/-- Generic insertion-order-preserving `defaultdict(list)` append:
`d[k].append(v)` where a fresh key goes to the end. -/
def appendGroup {κ β : Type} [DecidableEq κ]
    (al : List (κ × List β)) (k : κ) (v : β) : List (κ × List β) :=
  if al.any (fun p => p.1 = k) then
    al.map (fun p => if p.1 = k then (p.1, p.2 ++ [v]) else p)
  else al ++ [(k, [v])]

/-- The job dictionary built for one promoted sequence group by
find_sequences (copeer.py lines 203-209): sort the `(frame, path, size)`
tuples, unzip, take min/max frame, sanitize the group leading text, and build
the virtual tar path. -/
structure SeqJob where
  key : String
  dirPath : String
  tarFilename : String
  sourceFiles : List String
  size : Int
deriving Repr, DecidableEq

/-- Configuration slice consumed by find_sequences. -/
structure SeqConfig where
  minFiles : Nat
  imageExts : List String
deriving Repr, DecidableEq

/-- Construction of the sequence-job record from one group's data. -/
def mkSeqJob (uw : Char → Bool) (dirPath pre ext : String) (ts : List Trip) : SeqJob :=
  let sorted := sortTuples ts
  let frames := sorted.map (fun t => t.1)
  let mn := frames.min?.getD 0
  let mx := frames.max?.getD 0
  let tn := mkTarName (safePre uw pre) mn mx ext
  { key := pyJoin dirPath tn
    dirPath := dirPath
    tarFilename := tn
    sourceFiles := sorted.map (fun t => t.2.1)
    size := (sorted.map (fun t => t.2.2)).sum }

/-- Per-directory grouping loop of find_sequences: each file matching the
regex whose lowered extension is configured is appended to the group keyed by
`(leading group, lowered extension)`; the stored tuple carries the joined full
path. -/
def groupFiles (dirPath : String) (files : List (String × Int)) (cfg : SeqConfig) :
    List ((String × String) × List Trip) :=
  files.foldl (fun gs f =>
    match matchSeqRE f.1 with
    | some (pre, fr, ext) =>
      if cfg.imageExts.contains (pyToLower ext) then
        appendGroup gs (pre, pyToLower ext) (fr, pyJoin dirPath f.1, f.2)
      else gs
    | none => gs) []

/-- Promotion rule of find_sequences in src/copeer.py (lines 201-210): a group
is promoted iff it has at least `min_files_for_sequence` members.  There is no
continuity check in this variant. -/
def promoteGroup (uw : Char → Bool) (cfg : SeqConfig) (dirPath : String)
    (g : (String × String) × List Trip) : Option SeqJob :=
  if cfg.minFiles ≤ g.2.length then some (mkSeqJob uw dirPath g.1.1 g.1.2 g.2) else none

/-- find_sequences of src/copeer.py: all promoted groups of all directories in
loop order, plus the set of member paths (as a list used for membership). -/
def find_sequences (uw : Char → Bool)
    (dirs : List (String × List (String × Int))) (cfg : SeqConfig) :
    List SeqJob × List String :=
  let js := dirs.flatMap (fun d => (groupFiles d.1 d.2 cfg).filterMap (promoteGroup uw cfg d.1))
  (js, js.flatMap (fun j => j.sourceFiles))

/-- Promotion rule of find_sequences in src/copeer_lite.py (lines 146-184): on
top of the size threshold it requires `missing <= max(1, int(expected * 0.05))`
with `expected = max - min + 1` and `missing = expected - count`.
`int(expected * 0.05)` is Python float arithmetic; for every `expected` below
2^49 the double `0.05` (slightly above 1/20) makes `int(expected * 0.05)`
equal to `expected / 20` in integer division, which is used here.  Python's
`missing` can be negative when duplicate frame numbers occur; truncated `Nat`
subtraction yields 0 then, and both promote, so the outcomes agree. -/
def promoteGroupLite (uw : Char → Bool) (cfg : SeqConfig) (dirPath : String)
    (g : (String × String) × List Trip) : Option SeqJob :=
  if cfg.minFiles ≤ g.2.length then
    let frames := (sortTuples g.2).map (fun t => t.1)
    let mn := frames.min?.getD 0
    let mx := frames.max?.getD 0
    let expected := mx - mn + 1
    let allowed := max 1 (expected / 20)
    if expected - frames.length ≤ allowed then
      some (mkSeqJob uw dirPath g.1.1 g.1.2 g.2)
    else none
  else none

/-- find_sequences of src/copeer_lite.py (`frame_info` bookkeeping fields of
the job dictionary are not modelled; no claim mentions them). -/
def find_sequences_lite (uw : Char → Bool)
    (dirs : List (String × List (String × Int))) (cfg : SeqConfig) :
    List SeqJob × List String :=
  let js := dirs.flatMap
    (fun d => (groupFiles d.1 d.2 cfg).filterMap (promoteGroupLite uw cfg d.1))
  (js, js.flatMap (fun j => j.sourceFiles))

/-! ## Size parsing (`parse_scientific_notation`)

`int(...)` and `int(float(...))` are CPython builtins, not repository code, so
they are oracle parameters `intParse` and `floatTrunc`: each returns `none`
when the Python call raises `ValueError` and the parsed (truncated) integer
otherwise. -/

/-- Embeds parse_scientific_notation of src/copeer.py (lines 231-236): clean
the string by `replace(",", ".")` then `strip()`; if the cleaned string
contains `E` case-insensitively, parse as float and truncate, else parse as a
decimal integer; both failures yield 0 via the `except` clause. -/
def parse_sci (floatTrunc intParse : String → Option Int) (s : String) : Int :=
  let cleaned := pyStrip (replaceCommaDot s)
  if hasE cleaned then (floatTrunc cleaned).getD 0 else (intParse cleaned).getD 0

/-- The same computation as the specification words it (spec section 4.1):
"strip whitespace, replace `,`→`.`, if `E` present parse as float then
truncate, else parse as integer; on failure use 0" — stripping before
replacing. -/
def parse_sci_spec (floatTrunc intParse : String → Option Int) (s : String) : Int :=
  let cleaned := replaceCommaDot (pyStrip s)
  if hasE cleaned then (floatTrunc cleaned).getD 0 else (intParse cleaned).getD 0

/-! ## The planner (`analyze_and_plan_jobs`, src/copeer.py lines 271-310)

The CSV rows arrive already split into cells (the `csv.reader` delimiter
logic is not in scope of any claim).  `os.path.normpath(os.path.join(root,
rel))` is the oracle `absPath`; `str(Path(p).parent)` and `Path(p).name`
together are the oracle `splitPath`; `sizeOf` is the size parser applied to
column 5.  Python's `dict` preserves insertion order and keeps the first
position on overwrite, modelled by `upsert`; `set(...)` iteration order is
unspecified across processes (string hashing is seeded per process), so the
enumeration of the standalone-file set is the explicit parameter `enum`,
constrained where needed to enumerations (permutations) of the key list. -/

/-- Ordered dict insert-or-overwrite. -/
def upsert (al : List (String × Int)) (k : String) (v : Int) : List (String × Int) :=
  if al.any (fun p => p.1 = k) then
    al.map (fun p => if p.1 = k then (p.1, v) else p)
  else al ++ [(k, v)]

/-- Ordered dict lookup. -/
def lookupA (al : List (String × Int)) (k : String) : Option Int :=
  (al.find? (fun p => p.1 = k)).map (fun p => p.2)

/-- A planned unit of work: either a single-file copy job or a sequence
archive job (the `'type'` tag of the Python job dictionaries). -/
inductive Job where
  | seq (j : SeqJob)
  | file (key : String) (size : Int)
deriving Repr, DecidableEq

/-- The `'key'` field of a job. -/
def Job.key : Job → String
  | .seq j => j.key
  | .file k _ => k

/-- The `'size'` field of a job. -/
def Job.size : Job → Int
  | .seq j => j.size
  | .file _ s => s

/-- Descending-size order used by `jobs.sort(key=..., reverse=True)`; with a
stable sort this is exactly Python's stable descending sort. -/
abbrev sizeGeRel (a b : Job) : Prop := b.size ≤ a.size

/-- One iteration of the CSV ingestion loop of analyze_and_plan_jobs: skip
rows with fewer than five cells, drop `directory` rows, keep rows whose type
mentions `file`, and accumulate both the per-directory file map and the
path-keyed size dict. -/
def planStep (absPath : String → String) (splitPath : String → String × String)
    (sizeOf : String → Int)
    (st : List (String × List (String × Int)) × List (String × Int))
    (row : List String) :
    List (String × List (String × Int)) × List (String × Int) :=
  if row.length < 5 then st
  else if containsSub (row.getD 1 "") "directory" then st
  else if containsSub (row.getD 1 "") "file" then
    (appendGroup st.1 (splitPath (absPath (row.getD 0 ""))).1
      ((splitPath (absPath (row.getD 0 ""))).2, sizeOf (row.getD 4 "")),
     upsert st.2 (absPath (row.getD 0 "")) (sizeOf (row.getD 4 "")))
  else st

/-- The full CSV ingestion loop. -/
def planRows (absPath : String → String) (splitPath : String → String × String)
    (sizeOf : String → Int) (rows : List (List String)) :
    List (String × List (String × Int)) × List (String × Int) :=
  rows.foldl (planStep absPath splitPath sizeOf) ([], [])

/-- The copy-job candidates of analyze_and_plan_jobs: the files of the size
dict that belong to no promoted sequence, in set-enumeration order, wrapped as
file jobs with their dict size. -/
def planCopyAll (absPath : String → String) (splitPath : String → String × String)
    (sizeOf : String → Int) (uw : Char → Bool) (enum : List String → List String)
    (rows : List (List String)) (cfg : SeqConfig) : List Job :=
  let da := planRows absPath splitPath sizeOf rows
  let fs := find_sequences uw da.1 cfg
  (enum ((da.2.map (fun p => p.1)).filter (fun k => !fs.2.contains k))).map
    (fun f => Job.file f ((lookupA da.2 f).getD 0))

/-- analyze_and_plan_jobs of src/copeer.py from parsed rows to the pair
(copy jobs, archive jobs), each filtered against the processed-keys state and
stably sorted by descending size. -/
def analyze_and_plan_jobs (absPath : String → String)
    (splitPath : String → String × String) (sizeOf : String → Int)
    (uw : Char → Bool) (enum : List String → List String)
    (rows : List (List String)) (cfg : SeqConfig) (processed : List String) :
    List Job × List Job :=
  let copy := (planCopyAll absPath splitPath sizeOf uw enum rows cfg).filter
    (fun j => !processed.contains j.key)
  let arch := ((find_sequences uw (planRows absPath splitPath sizeOf rows).1 cfg).1.map
    Job.seq).filter (fun j => !processed.contains j.key)
  (List.insertionSort sizeGeRel copy, List.insertionSort sizeGeRel arch)

/-! ## Disk manager (src/copeer.py lines 58-161) -/

/-- Snapshot of one mount point as sampled by `os.path.exists` / `statvfs`:
existence, usage percentage as computed by `_get_disk_usage`, and free bytes
as computed by `_get_disk_free_space`. -/
structure DiskStat where
  ex : Bool
  usage : Rat
  free : Int
deriving DecidableEq

/-- DiskManager state relevant to destination choice. -/
structure DiskManager where
  mountPoints : List String
  threshold : Rat
  isDryRun : Bool
  maxConcurrentDisks : Nat
  nextDiskIndex : Nat
deriving DecidableEq

/-- `_is_disk_suitable` (lines 99-108): outside dry-run the disk must exist,
its usage must be strictly below the threshold, and its free space must
strictly exceed the required space; in dry-run every disk is suitable. -/
def isDiskSuitable (dryRun : Bool) (threshold : Rat) (env : String → DiskStat)
    (p : String) (req : Int) : Bool :=
  if !dryRun then
    if !(env p).ex then false
    else if threshold ≤ (env p).usage then false
    else if (env p).free ≤ req then false
    else true
  else true

/-- Suitability of one mount for one job, as used by get_current_destination. -/
def rrSuit (dm : DiskManager) (env : String → DiskStat) (sz : Int) (d : String) : Bool :=
  isDiskSuitable dm.isDryRun dm.threshold env d sz

/-- The preferred pool `mount_points[:max_concurrent_disks]`. -/
def rrPool (dm : DiskManager) : List String :=
  dm.mountPoints.take dm.maxConcurrentDisks

/-- The fallback disks `mount_points[max_concurrent_disks:]`. -/
def rrFallback (dm : DiskManager) : List String :=
  dm.mountPoints.drop dm.maxConcurrentDisks

/-- First index at or after `i` (within `fuel` steps) satisfying `p`,
mirroring a Python `for`-loop with early `return`. -/
def findFirstAux (p : Nat → Bool) : Nat → Nat → Option Nat
  | _, 0 => none
  | i, fuel + 1 => if p i then some i else findFirstAux p (i + 1) fuel

/-- First index below `n` satisfying `p`. -/
def findFirst (p : Nat → Bool) (n : Nat) : Option Nat := findFirstAux p 0 n

/-- Suitability of the pool entry probed at offset `i` of the cyclic scan
`check_index = (next_disk_index + i) % len(preferred_pool)`. -/
def rrScanPred (dm : DiskManager) (env : String → DiskStat) (jobSize : Int)
    (i : Nat) : Bool :=
  rrSuit dm env jobSize
    ((rrPool dm).getD ((dm.nextDiskIndex + i) % (rrPool dm).length) "")

/-- Suitability of the `k`-th fallback disk. -/
def rrFbPred (dm : DiskManager) (env : String → DiskStat) (jobSize : Int)
    (k : Nat) : Bool :=
  rrSuit dm env jobSize ((rrFallback dm).getD k "")

/-- get_current_destination (lines 120-147), `round_robin` branch: phase 1
scans the preferred pool cyclically from `next_disk_index`, returns the first
suitable disk and advances the index to its successor modulo the pool size;
phase 2 scans the remaining disks linearly without touching the index; if
neither finds a disk a `RuntimeError` is raised, modelled as `none`.  The
result pairs the chosen mount with the updated `next_disk_index`. -/
def getCurrentDestinationRR (dm : DiskManager) (env : String → DiskStat)
    (jobSize : Int) : Option (String × Nat) :=
  match (if (rrPool dm).length ≠ 0 then
      findFirst (rrScanPred dm env jobSize) (rrPool dm).length
    else none) with
  | some i =>
    some ((rrPool dm).getD ((dm.nextDiskIndex + i) % (rrPool dm).length) "",
      ((dm.nextDiskIndex + i) % (rrPool dm).length + 1) % (rrPool dm).length)
  | none =>
    match findFirst (rrFbPred dm env jobSize) (rrFallback dm).length with
    | some k => some ((rrFallback dm).getD k "", dm.nextDiskIndex)
    | none => none

/-! ## Log files (write_log and the result handling in main)

The append-only log files are modelled as a map from filename to the list of
appended rows (a row is its list of CSV cells; error-log lines are single
cells as written by a raw `f.write`). -/

/-- Log file system: filename to rows appended so far. -/
abbrev Store := String → List (List String)

/-- Append one row to one file. -/
def appendRow (st : Store) (file : String) (row : List String) : Store :=
  fun f => if f = file then st f ++ [row] else st f

/-- Filenames used by the logging code (config keys `state_file`,
`mapping_file`, `dry_run_mapping_file`, `error_log_file`). -/
structure FilesCfg where
  stateFile : String
  mappingFile : String
  dryMappingFile : String
  errorFile : String
deriving DecidableEq

/-- write_log of src/copeer.py (lines 185-190): append `[key]` to the state
file unless dry-run; append `[key, dest_path]` to the given mapping file when
`dest_path` is truthy. -/
def write_log (stateFile mappingFile : String) (key destPath : String)
    (isDryRun : Bool) (st : Store) : Store :=
  let st1 := if !isDryRun then appendRow st stateFile [key] else st
  if destPath ≠ "" then appendRow st1 mappingFile [key, destPath] else st1

/-- Success handling in main of src/copeer.py (lines 650-652 and 684-686):
`for key in keys: write_log(state_file, mapping_file, key, path, is_dry_run)`.
The mapping target is always `config['mapping_file']`. -/
def mainLogSuccess (cfg : FilesCfg) (isDryRun : Bool) (keys : List String)
    (destPath : String) (st : Store) : Store :=
  keys.foldl (fun s k => write_log cfg.stateFile cfg.mappingFile k destPath isDryRun s) st

/-- Success handling in main of src/copeer_lite.py (lines 369-376): identical
loop, but the mapping target is the dry-run mapping file when in dry-run. -/
def liteLogSuccess (cfg : FilesCfg) (isDryRun : Bool) (keys : List String)
    (destPath : String) (st : Store) : Store :=
  keys.foldl (fun s k =>
    write_log cfg.stateFile (if isDryRun then cfg.dryMappingFile else cfg.mappingFile)
      k destPath isDryRun s) st

/-- Error rows appended by the `except` branch of process_job_worker
(src/copeer.py lines 443-463): for a failed sequence one line per member
source file, all with the same message; for a failed file one line. -/
def errorRowsFor (timeStr msg : String) : Job → List (List String)
  | .seq j => j.sourceFiles.map (fun s => [timeStr ++ ";" ++ s ++ ";" ++ msg])
  | .file k _ => [[timeStr ++ ";" ++ k ++ ";" ++ msg]]

/-- The `except` branch of process_job_worker: append the error rows to the
error log file (and nothing else); the worker then returns `(None, 0, None,
None)`, so main's `if job_type:` skips write_log entirely. -/
def workerLogFailure (cfg : FilesCfg) (timeStr : String) (job : Job)
    (msg : String) (st : Store) : Store :=
  match job with
  | .seq j => j.sourceFiles.foldl
      (fun s src => appendRow s cfg.errorFile [timeStr ++ ";" ++ src ++ ";" ++ msg]) st
  | .file k _ => appendRow st cfg.errorFile [timeStr ++ ";" ++ k ++ ";" ++ msg]

/-! ## Archiver (archive_sequence_to_destination, src/copeer.py lines 213-229)

`tarfile.open(dest, "w")` creates the destination file; each existing member
is added with `tar.add`; a missing member only logs a warning.  An `IOError`
/ `OSError` / `TarError` is modelled by the oracle `failAt`: the index of the
`tar.add` call that raises (counting only performed adds), `none` for an
error-free run.  The `except` branch logs and returns `False`; no code path
removes the created destination file. -/

/-- The member loop: `false` when the `failAt`-th performed `tar.add` raises. -/
def archiveLoop (srcEx : String → Bool) (failAt : Option Nat) :
    List String → Nat → Bool
  | [], _ => true
  | f :: rest, i =>
    if srcEx f then
      if failAt = some i then false else archiveLoop srcEx failAt rest (i + 1)
    else archiveLoop srcEx failAt rest i

/-- Result of archive_sequence_to_destination: the returned success flag and
whether the destination tar file exists afterwards (it is created by
`tarfile.open` and never removed). -/
def archive_sequence_run (srcEx : String → Bool) (failAt : Option Nat)
    (files : List String) : Bool × Bool :=
  (archiveLoop srcEx failAt files 0, true)

/-- The sequence branch of process_job_worker (lines 393-398): a `False` from
the archiver raises `RuntimeError`, caught by the `except` branch, so the
worker reports failure (`none`); on success the member list is returned for
state logging. -/
def seqWorkerOutcome (srcEx : String → Bool) (failAt : Option Nat)
    (files : List String) : Option (List String) :=
  if (archive_sequence_run srcEx failAt files).1 then some files else none

/-! ## Spec-side definitions for refinement comparison -/

/-- Sanitization exactly as claim C7 words it: every character outside
`[A-Za-z0-9_.\-]` of the group's leading text is replaced by `_` (no
stripping, ASCII class). -/
def claimSanitize (s : String) : String :=
  String.mk (s.toList.map
    (fun c => if c.isAlphanum || c = '_' || c = '.' || c = '-' then c else '_'))

/-- The tar name predicted by claim C7. -/
def claimTarName (pre : String) (mn mx : Nat) (ext : String) : String :=
  claimSanitize pre ++ "." ++ pad4 mn ++ "-" ++ pad4 mx ++ "." ++ ext ++ ".tar"

/-! ## Concrete instances used by witnesses and counterexamples -/

/-- Unicode word-character oracle used in concrete runs: the inputs below are
pure ASCII, so its value is irrelevant. -/
def uw0 : Char → Bool := fun _ => false

/-- A faithful `str(Path(p).parent), Path(p).name` instance for the
slash-normalized concrete paths below. -/
def posixSplit (p : String) : String × String :=
  let cs := p.toList
  let nameRev := cs.reverse.takeWhile (fun c => c ≠ '/')
  if nameRev.length = cs.length then (".", p)
  else
    let par := (cs.reverse.drop (nameRev.length + 1)).reverse
    (if par.isEmpty then "/" else String.mk par, String.mk nameRev.reverse)

/-- `int(float(.))` oracle instance: the concrete sizes below have no `E`, so
this branch is never taken. -/
def ftC : String → Option Int := fun _ => none

/-- `int(.)` oracle instance agreeing with Python on plain decimal digits. -/
def ipC : String → Option Int := fun s =>
  if !s.toList.isEmpty && s.toList.all Char.isDigit
  then some (Int.ofNat (digitsToNat s.toList)) else none

/-- Size parser instance for concrete runs. -/
def szC : String → Int := parse_sci ftC ipC

/-- C1 failing input: one directory holding a 2-element jpg group whose frames
1 and 100 leave 98 missing frames. -/
def dirs1 : List (String × List (String × Int)) :=
  [("/d", [("a0001.jpg", 1), ("a0100.jpg", 1)])]

/-- C1 configuration: `min_files_for_sequence = 2`, jpg is an image ext. -/
def cfg1 : SeqConfig := ⟨2, ["jpg"]⟩

/-- C7 counterexample input: a group whose regex leading text `a ` ends in a
space. -/
def dirs7 : List (String × List (String × Int)) :=
  [("/d", [("a 0001.dpx", 1), ("a 0002.dpx", 2)])]

/-- C7 configuration. -/
def cfg7 : SeqConfig := ⟨2, ["dpx"]⟩

/-- The sequence job emitted on the C7 input. -/
def jobC7 : SeqJob :=
  { key := "/d/a.0001-0002.dpx.tar"
    dirPath := "/d"
    tarFilename := "a.0001-0002.dpx.tar"
    sourceFiles := ["/d/a 0001.dpx", "/d/a 0002.dpx"]
    size := 3 }

/-- C8 counterexample manifest: two files in `/s` whose distinct groups
`(a, dpx)` and `(a , dpx)` sanitize to the same prefix and share the frame
range 1-1. -/
def rows8 : List (List String) :=
  [["/s/a0001.dpx", "file", "", "", "1"], ["/s/a 0001.dpx", "file", "", "", "1"]]

/-- C8 configuration: `min_files_for_sequence = 1`. -/
def cfg8 : SeqConfig := ⟨1, ["dpx"]⟩

/-- C6 counterexample manifest: two standalone files of equal size. -/
def rows6 : List (List String) :=
  [["/s/x.mov", "file", "", "", "5"], ["/s/y.mov", "file", "", "", "5"]]

/-- C6 configuration (nothing matches the image extensions). -/
def cfg6 : SeqConfig := ⟨50, ["dpx"]⟩

/-- Default log filenames of DEFAULT_CONFIG. -/
def cfgD : FilesCfg :=
  ⟨"copier_state.csv", "mapping.csv", "dry_run_mapping.csv", "errors.log"⟩

/-- Empty log store. -/
def st0 : Store := fun _ => []

/-- Disk manager instance for the C5 witness: three mounts, threshold 98,
round-robin pool of 2, index 0. -/
def dm0 : DiskManager :=
  { mountPoints := ["/mnt/d1", "/mnt/d2", "/mnt/d3"]
    threshold := 98
    isDryRun := false
    maxConcurrentDisks := 2
    nextDiskIndex := 0 }

/-- Disk environment for the C5 witness: `/mnt/d1` is 99% full, the others
half full with ample space. -/
def env0 : String → DiskStat :=
  fun p => if p = "/mnt/d1" then ⟨true, 99, 1000⟩ else ⟨true, 50, 1000⟩

/-! ## Helper lemmas -/

/-- Replacing commas by dots neither creates nor destroys whitespace. -/
theorem pyIsSpace_commaToDot (c : Char) : pyIsSpace (commaToDot c) = pyIsSpace c := by
  by_cases h : c = ','
  · subst h; decide
  · simp [commaToDot, h]

/-- `strip` commutes with the comma-to-dot substitution on character lists. -/
theorem pyStripL_map_commaToDot (cs : List Char) :
    pyStripL (cs.map commaToDot) = (pyStripL cs).map commaToDot := by
  have hp : ∀ l : List Char, List.dropWhile pyIsSpace (l.map commaToDot) =
      (List.dropWhile pyIsSpace l).map commaToDot := by
    intro l
    rw [List.dropWhile_map,
      show (pyIsSpace ∘ commaToDot) = pyIsSpace from funext pyIsSpace_commaToDot]
  have hr : ∀ l : List Char, (l.map commaToDot).reverse = l.reverse.map commaToDot := by
    intro l; simp
  unfold pyStripL
  rw [hp, hr, hp, hr]

/-- `str.strip` commutes with `str.replace(",", ".")`. -/
theorem pyStrip_replaceCommaDot (s : String) :
    pyStrip (replaceCommaDot s) = replaceCommaDot (pyStrip s) := by
  unfold pyStrip replaceCommaDot
  exact congrArg String.mk (pyStripL_map_commaToDot s.toList)

/-- Appending a row to one file leaves any other file unchanged. -/
theorem appendRow_ne (st : Store) (file : String) (row : List String) (f : String)
    (h : f ≠ file) : appendRow st file row f = st f := by
  simp [appendRow, h]

/-- Appending a row to a file appends to that file's rows. -/
theorem appendRow_self (st : Store) (file : String) (row : List String) :
    appendRow st file row file = st file ++ [row] := by
  simp [appendRow]

/-- A fold of single-file appends leaves any other file unchanged. -/
theorem foldl_appendRow_ne {α : Type} (file : String) (g : α → List String)
    (l : List α) (st : Store) (f : String) (h : f ≠ file) :
    (l.foldl (fun s x => appendRow s file (g x)) st) f = st f := by
  induction l generalizing st with
  | nil => rfl
  | cons a l ih => simp only [List.foldl_cons]; rw [ih, appendRow_ne _ _ _ _ h]

/-- A fold of single-file appends appends exactly the mapped rows. -/
theorem foldl_appendRow_self {α : Type} (file : String) (g : α → List String)
    (l : List α) (st : Store) :
    (l.foldl (fun s x => appendRow s file (g x)) st) file = st file ++ l.map g := by
  induction l generalizing st with
  | nil => simp
  | cons a l ih => simp only [List.foldl_cons, List.map_cons]
                   rw [ih, appendRow_self, List.append_assoc]; rfl

/-- One non-dry write_log call appends exactly one state row for its key. -/
theorem write_log_state (cfg : FilesCfg) (k dest : String) (st : Store)
    (hne : cfg.stateFile ≠ cfg.mappingFile) :
    write_log cfg.stateFile cfg.mappingFile k dest false st cfg.stateFile =
      st cfg.stateFile ++ [[k]] := by
  have hu : write_log cfg.stateFile cfg.mappingFile k dest false st =
      (if dest ≠ "" then appendRow (appendRow st cfg.stateFile [k]) cfg.mappingFile [k, dest]
       else appendRow st cfg.stateFile [k]) := rfl
  rw [hu]
  by_cases hd : dest ≠ ""
  · rw [if_pos hd, appendRow_ne _ _ _ _ hne, appendRow_self]
  · rw [if_neg hd, appendRow_self]

/-- One non-dry write_log call with a nonempty destination appends exactly one
mapping row `(key, dest)`. -/
theorem write_log_mapping (cfg : FilesCfg) (k dest : String) (st : Store)
    (hne : cfg.stateFile ≠ cfg.mappingFile) (hd : dest ≠ "") :
    write_log cfg.stateFile cfg.mappingFile k dest false st cfg.mappingFile =
      st cfg.mappingFile ++ [[k, dest]] := by
  have hu : write_log cfg.stateFile cfg.mappingFile k dest false st =
      (if dest ≠ "" then appendRow (appendRow st cfg.stateFile [k]) cfg.mappingFile [k, dest]
       else appendRow st cfg.stateFile [k]) := rfl
  rw [hu, if_pos hd, appendRow_self, appendRow_ne _ _ _ _ (Ne.symm hne)]

/-- The success loop of main appends one state row per logged key. -/
theorem mainLogSuccess_state (cfg : FilesCfg) (keys : List String) (dest : String)
    (st : Store) (hne : cfg.stateFile ≠ cfg.mappingFile) :
    mainLogSuccess cfg false keys dest st cfg.stateFile =
      st cfg.stateFile ++ keys.map (fun k => [k]) := by
  induction keys generalizing st with
  | nil => simp [mainLogSuccess]
  | cons k ks ih =>
    unfold mainLogSuccess at ih ⊢
    simp only [List.foldl_cons, List.map_cons]
    rw [ih, write_log_state cfg k dest st hne, List.append_assoc]; rfl

/-- The success loop of main appends one mapping row `(key, dest)` per logged
key. -/
theorem mainLogSuccess_mapping (cfg : FilesCfg) (keys : List String) (dest : String)
    (st : Store) (hne : cfg.stateFile ≠ cfg.mappingFile) (hd : dest ≠ "") :
    mainLogSuccess cfg false keys dest st cfg.mappingFile =
      st cfg.mappingFile ++ keys.map (fun k => [k, dest]) := by
  induction keys generalizing st with
  | nil => simp [mainLogSuccess]
  | cons k ks ih =>
    unfold mainLogSuccess at ih ⊢
    simp only [List.foldl_cons, List.map_cons]
    rw [ih, write_log_mapping cfg k dest st hne hd, List.append_assoc]; rfl

/-! ## Claim C9 -/

/-- Claim C9: size parsing returns the whitespace-stripped, comma-to-dot
string parsed as a truncated float when it contains `E` case-insensitively,
else as a decimal integer, with 0 on either parse failure — the code
(replace, then strip) equals the claim's description (strip, then replace)
for every size string and every behaviour of the two Python number parsers. -/
theorem c9_parse_size_matches_spec (floatTrunc intParse : String → Option Int)
    (s : String) :
    parse_sci floatTrunc intParse s = parse_sci_spec floatTrunc intParse s := by
  unfold parse_sci parse_sci_spec
  rw [pyStrip_replaceCommaDot]

/-! ## Claim C2 -/

/-- Counterexample to claim C2: on a successfully archived sequence with two
members, main's logging loop appends one state row per member as claimed, but
appends one mapping row per member keyed by the member path; it appends no
row keyed by the virtual tar path, and not exactly one mapping row. -/
theorem c2_mapping_rows_per_member_cex :
    mainLogSuccess cfgD false ["/s/f0001.dpx", "/s/f0002.dpx"]
      "/mnt/d1/s/a.0001-0002.dpx.tar" st0 cfgD.stateFile =
        [["/s/f0001.dpx"], ["/s/f0002.dpx"]] ∧
    mainLogSuccess cfgD false ["/s/f0001.dpx", "/s/f0002.dpx"]
      "/mnt/d1/s/a.0001-0002.dpx.tar" st0 cfgD.mappingFile =
        [["/s/f0001.dpx", "/mnt/d1/s/a.0001-0002.dpx.tar"],
         ["/s/f0002.dpx", "/mnt/d1/s/a.0001-0002.dpx.tar"]] ∧
    mainLogSuccess cfgD false ["/s/f0001.dpx", "/s/f0002.dpx"]
      "/mnt/d1/s/a.0001-0002.dpx.tar" st0 cfgD.mappingFile ≠
        [["/s/a.0001-0002.dpx.tar", "/mnt/d1/s/a.0001-0002.dpx.tar"]] := by
  refine ⟨rfl, rfl, by decide⟩

/-- Claim C2 amended: for every successfully completed job logged outside
dry-run, one state row `[key]` and one mapping row `[key, dest]` are appended
per logged source key (for a sequence job the logged keys are its members, so
a sequence yields one state row and one mapping row per member, none keyed by
the virtual tar path). -/
theorem c2_success_logging_rows (cfg : FilesCfg) (keys : List String)
    (dest : String) (st : Store) (hne : cfg.stateFile ≠ cfg.mappingFile)
    (hd : dest ≠ "") :
    mainLogSuccess cfg false keys dest st cfg.stateFile =
      st cfg.stateFile ++ keys.map (fun k => [k]) ∧
    mainLogSuccess cfg false keys dest st cfg.mappingFile =
      st cfg.mappingFile ++ keys.map (fun k => [k, dest]) :=
  ⟨mainLogSuccess_state cfg keys dest st hne,
   mainLogSuccess_mapping cfg keys dest st hne hd⟩

/-- Witness for the amended C2 theorem at a concrete two-member sequence. -/
theorem c2_success_logging_rows_witness :
    mainLogSuccess cfgD false ["/s/m1", "/s/m2"] "/mnt/d1/t.tar" st0 cfgD.stateFile =
      st0 cfgD.stateFile ++ [["/s/m1"], ["/s/m2"]] ∧
    mainLogSuccess cfgD false ["/s/m1", "/s/m2"] "/mnt/d1/t.tar" st0 cfgD.mappingFile =
      st0 cfgD.mappingFile ++ [["/s/m1", "/mnt/d1/t.tar"], ["/s/m2", "/mnt/d1/t.tar"]] :=
  c2_success_logging_rows cfgD ["/s/m1", "/s/m2"] "/mnt/d1/t.tar" st0
    (by decide) (by decide)

/-! ## Claim C3 -/

/-- Claim C3 is right about the intended behaviour and src/copeer_lite.py
implements it, but src/copeer.py does not: in dry-run, state stays empty in
both, yet copeer.py appends the mapping entry to the normal mapping file and
leaves the dry-run mapping file untouched, while copeer_lite.py routes it to
the dry-run mapping file; error rows are written regardless. -/
theorem c3_dry_run_mapping_misrouted :
    mainLogSuccess cfgD true ["/s/f1"] "/mnt/d1/f1" st0 cfgD.stateFile = [] ∧
    mainLogSuccess cfgD true ["/s/f1"] "/mnt/d1/f1" st0 cfgD.dryMappingFile = [] ∧
    mainLogSuccess cfgD true ["/s/f1"] "/mnt/d1/f1" st0 cfgD.mappingFile =
      [["/s/f1", "/mnt/d1/f1"]] ∧
    liteLogSuccess cfgD true ["/s/f1"] "/mnt/d1/f1" st0 cfgD.dryMappingFile =
      [["/s/f1", "/mnt/d1/f1"]] ∧
    liteLogSuccess cfgD true ["/s/f1"] "/mnt/d1/f1" st0 cfgD.mappingFile = [] ∧
    workerLogFailure cfgD "T" (Job.file "/s/f2" 1) "boom" st0 cfgD.errorFile =
      [["T;/s/f2;boom"]] := by
  refine ⟨rfl, rfl, rfl, rfl, rfl, rfl⟩

/-! ## Claim C10 -/

/-- Claim C10: a failed job appends nothing to the state, mapping or dry-run
mapping files — the worker's `except` branch touches only the error log,
appending one row per member for a sequence and one row for a file, and main's
`if job_type:` guard skips write_log for the `None` result. -/
theorem c10_failure_touches_only_error_log (cfg : FilesCfg) (t msg : String)
    (job : Job) (st : Store)
    (h1 : cfg.stateFile ≠ cfg.errorFile) (h2 : cfg.mappingFile ≠ cfg.errorFile)
    (h3 : cfg.dryMappingFile ≠ cfg.errorFile) :
    workerLogFailure cfg t job msg st cfg.stateFile = st cfg.stateFile ∧
    workerLogFailure cfg t job msg st cfg.mappingFile = st cfg.mappingFile ∧
    workerLogFailure cfg t job msg st cfg.dryMappingFile = st cfg.dryMappingFile ∧
    workerLogFailure cfg t job msg st cfg.errorFile =
      st cfg.errorFile ++ errorRowsFor t msg job := by
  cases job with
  | seq j =>
    exact ⟨foldl_appendRow_ne _ _ _ _ _ h1, foldl_appendRow_ne _ _ _ _ _ h2,
      foldl_appendRow_ne _ _ _ _ _ h3, foldl_appendRow_self _ _ _ _⟩
  | file k s =>
    exact ⟨appendRow_ne _ _ _ _ h1, appendRow_ne _ _ _ _ h2,
      appendRow_ne _ _ _ _ h3, appendRow_self _ _ _⟩

/-- Witness for C10 at a concrete failed two-member sequence job. -/
theorem c10_failure_witness :
    workerLogFailure cfgD "T" (Job.seq jobC7) "boom" st0 cfgD.stateFile =
      st0 cfgD.stateFile ∧
    workerLogFailure cfgD "T" (Job.seq jobC7) "boom" st0 cfgD.mappingFile =
      st0 cfgD.mappingFile ∧
    workerLogFailure cfgD "T" (Job.seq jobC7) "boom" st0 cfgD.dryMappingFile =
      st0 cfgD.dryMappingFile ∧
    workerLogFailure cfgD "T" (Job.seq jobC7) "boom" st0 cfgD.errorFile =
      st0 cfgD.errorFile ++ errorRowsFor "T" "boom" (Job.seq jobC7) :=
  c10_failure_touches_only_error_log cfgD "T" "boom" (Job.seq jobC7) st0
    (by decide) (by decide) (by decide)

/-! ## Claim C4 -/

/-- Counterexample to claim C4: an I/O error on the first `tar.add` fails the
job, yet the partially written tar file is still present at the destination —
no code path of archive_sequence_to_destination removes it. -/
theorem c4_partial_tar_remains_cex :
    (archive_sequence_run (fun _ => true) (some 0) ["/s/f1", "/s/f2"]).1 = false ∧
    (archive_sequence_run (fun _ => true) (some 0) ["/s/f1", "/s/f2"]).2 = true ∧
    seqWorkerOutcome (fun _ => true) (some 0) ["/s/f1", "/s/f2"] = none :=
  ⟨rfl, rfl, rfl⟩

/-- Claim C4 amended: on an I/O error while writing the tar, the stream is
closed (by the `with` block) and the job fails — the worker reports failure
and no member is logged as processed — but the partial tar artifact is NOT
deleted and remains at the destination. -/
theorem c4_failed_archive_artifact_remains (srcEx : String → Bool)
    (failAt : Option Nat) (files : List String)
    (h : (archive_sequence_run srcEx failAt files).1 = false) :
    seqWorkerOutcome srcEx failAt files = none ∧
    (archive_sequence_run srcEx failAt files).2 = true := by
  refine ⟨?_, rfl⟩
  unfold seqWorkerOutcome
  rw [h]
  rfl

/-- Witness for the amended C4 theorem at a concrete failing archive run. -/
theorem c4_failed_archive_artifact_remains_witness :
    seqWorkerOutcome (fun _ => true) (some 1) ["/s/g1", "/s/g2"] = none ∧
    (archive_sequence_run (fun _ => true) (some 1) ["/s/g1", "/s/g2"]).2 = true :=
  c4_failed_archive_artifact_remains (fun _ => true) (some 1) ["/s/g1", "/s/g2"] rfl

/-! ## Claim C1 -/

/-- Claim C1 is the documented rule (test_sequence_detection.py and
copeer_lite.py enforce it) but src/copeer.py omits the gap condition: on a
group of 2 jpg files with frames 1 and 100 under `min_files_for_sequence = 2`,
copeer.py's find_sequences promotes the group even though 98 frames are
missing against an allowance of `max(1, 100 / 20) = 5`, while copeer_lite.py's
find_sequences rejects it. -/
theorem c1_gap_rule_ignored_by_copeer :
    (find_sequences uw0 dirs1 cfg1).1.map SeqJob.key = ["/d/a.0001-0100.jpg.tar"] ∧
    (find_sequences uw0 dirs1 cfg1).1.map (fun j => j.sourceFiles) =
      [["/d/a0001.jpg", "/d/a0100.jpg"]] ∧
    (find_sequences_lite uw0 dirs1 cfg1).1 = [] ∧
    ¬ (100 - 2 ≤ max 1 (100 / 20)) := by
  refine ⟨rfl, rfl, rfl, by decide⟩

/-! ## Claim C6 -/

/-- Counterexample to claim C6: with two standalone files of equal size, the
emitted copy-job order follows the iteration order of the Python set
`set(all_files) - sequence_files` (the descending stable sort preserves the
tie), and that iteration order is not fixed across processes — two legitimate
enumerations of the same set yield different job lists. -/
theorem c6_plan_order_depends_on_set_order_cex :
    (analyze_and_plan_jobs id posixSplit szC uw0 id rows6 cfg6 []).1 =
      [Job.file "/s/x.mov" 5, Job.file "/s/y.mov" 5] ∧
    (analyze_and_plan_jobs id posixSplit szC uw0 List.reverse rows6 cfg6 []).1 =
      [Job.file "/s/y.mov" 5, Job.file "/s/x.mov" 5] ∧
    (analyze_and_plan_jobs id posixSplit szC uw0 id rows6 cfg6 []).1 ≠
      (analyze_and_plan_jobs id posixSplit szC uw0 List.reverse rows6 cfg6 []).1 := by
  refine ⟨rfl, rfl, by decide⟩

/-- Claim C6 amended: for identical manifest rows, configuration and state,
the planner yields the identical archive-job list, and copy-job lists that
are permutations of each other (the same jobs with the same keys); only the
relative order of equal-size copy jobs can differ, following the unspecified
iteration order of the standalone-file set. -/
theorem c6_plan_deterministic_up_to_tie_order (absPath : String → String)
    (splitPath : String → String × String) (sizeOf : String → Int)
    (uw : Char → Bool) (enum₁ enum₂ : List String → List String)
    (rows : List (List String)) (cfg : SeqConfig) (processed : List String)
    (h₁ : ∀ l, List.Perm (enum₁ l) l) (h₂ : ∀ l, List.Perm (enum₂ l) l) :
    (analyze_and_plan_jobs absPath splitPath sizeOf uw enum₁ rows cfg processed).2 =
      (analyze_and_plan_jobs absPath splitPath sizeOf uw enum₂ rows cfg processed).2 ∧
    List.Perm (analyze_and_plan_jobs absPath splitPath sizeOf uw enum₁ rows cfg processed).1
      (analyze_and_plan_jobs absPath splitPath sizeOf uw enum₂ rows cfg processed).1 := by
  refine ⟨rfl, ?_⟩
  have base := (h₁ (((planRows absPath splitPath sizeOf rows).2.map (fun p => p.1)).filter
    (fun k => !(find_sequences uw (planRows absPath splitPath sizeOf rows).1 cfg).2.contains k))).trans
    (h₂ (((planRows absPath splitPath sizeOf rows).2.map (fun p => p.1)).filter
      (fun k => !(find_sequences uw (planRows absPath splitPath sizeOf rows).1 cfg).2.contains k))).symm
  have hmap := base.map
    (fun f => Job.file f ((lookupA (planRows absPath splitPath sizeOf rows).2 f).getD 0))
  have hfil := hmap.filter (fun j => !processed.contains j.key)
  exact ((List.perm_insertionSort _ _).trans hfil).trans (List.perm_insertionSort _ _).symm

/-- Witness for the amended C6 theorem: identity and reversal enumerations of
the standalone set on the concrete two-file manifest. -/
theorem c6_plan_deterministic_witness :
    (analyze_and_plan_jobs id posixSplit szC uw0 id rows6 cfg6 []).2 =
      (analyze_and_plan_jobs id posixSplit szC uw0 List.reverse rows6 cfg6 []).2 ∧
    List.Perm (analyze_and_plan_jobs id posixSplit szC uw0 id rows6 cfg6 []).1
      (analyze_and_plan_jobs id posixSplit szC uw0 List.reverse rows6 cfg6 []).1 :=
  c6_plan_deterministic_up_to_tie_order id posixSplit szC uw0 id List.reverse rows6 cfg6 []
    (fun l => List.Perm.refl l) (fun l => List.reverse_perm l)

/-! ## Claim C8 -/

/-- Counterexample to claim C8: the manifest `rows8` makes the planner emit
two sequence jobs with the same key `/s/a.0001-0001.dpx.tar` — the groups
`(a, dpx)` and `(a , dpx)` are distinct but their sanitized prefixes, frame
ranges and extensions coincide. -/
theorem c8_duplicate_sequence_keys_cex :
    ((analyze_and_plan_jobs id posixSplit szC uw0 id rows8 cfg8 []).2).map Job.key =
      ["/s/a.0001-0001.dpx.tar", "/s/a.0001-0001.dpx.tar"] ∧
    ¬ (((analyze_and_plan_jobs id posixSplit szC uw0 id rows8 cfg8 []).1).map Job.key ++
        ((analyze_and_plan_jobs id posixSplit szC uw0 id rows8 cfg8 []).2).map Job.key).Nodup := by
  refine ⟨rfl, by decide⟩

/-- Keys of the size dict after one upsert. -/
theorem upsert_keys (al : List (String × Int)) (k : String) (v : Int) :
    (upsert al k v).map (fun p => p.1) =
      if al.any (fun p => p.1 = k) then al.map (fun p => p.1)
      else al.map (fun p => p.1) ++ [k] := by
  unfold upsert
  split
  · rw [List.map_map]
    refine List.map_congr_left ?_
    intro p _
    by_cases hp : p.1 = k <;> simp [hp]
  · simp

/-- Upsert preserves distinctness of the dict keys. -/
theorem upsert_keys_nodup (al : List (String × Int)) (k : String) (v : Int)
    (h : (al.map (fun p => p.1)).Nodup) :
    ((upsert al k v).map (fun p => p.1)).Nodup := by
  rw [upsert_keys]
  split
  · exact h
  · next hany =>
    rw [List.nodup_append]
    refine ⟨h, List.nodup_singleton k, ?_⟩
    intro a ha hb
    rw [List.mem_singleton] at hb
    subst hb
    obtain ⟨p, hp, hpk⟩ := List.mem_map.mp ha
    exact hany (List.any_eq_true.mpr ⟨p, hp, by simp [hpk]⟩)

/-- One planner ingestion step preserves distinctness of the dict keys. -/
theorem planStep_keys_nodup (absPath : String → String)
    (splitPath : String → String × String) (sizeOf : String → Int)
    (st : List (String × List (String × Int)) × List (String × Int))
    (row : List String) (h : ((st.2).map (fun p => p.1)).Nodup) :
    (((planStep absPath splitPath sizeOf st row).2).map (fun p => p.1)).Nodup := by
  unfold planStep
  split
  · exact h
  · split
    · exact h
    · split
      · exact upsert_keys_nodup _ _ _ h
      · exact h

/-- A planner ingestion fold preserves distinctness of the dict keys. -/
theorem planFold_keys_nodup (absPath : String → String)
    (splitPath : String → String × String) (sizeOf : String → Int) :
    ∀ (rs : List (List String))
      (st : List (String × List (String × Int)) × List (String × Int)),
      ((st.2).map (fun p => p.1)).Nodup →
      (((rs.foldl (planStep absPath splitPath sizeOf) st).2).map (fun p => p.1)).Nodup := by
  intro rs
  induction rs with
  | nil => intro st h; exact h
  | cons r rs ih =>
    intro st h
    exact ih _ (planStep_keys_nodup _ _ _ _ _ h)

/-- The size dict keys built by the planner are distinct. -/
theorem planRows_keys_nodup (absPath : String → String)
    (splitPath : String → String × String) (sizeOf : String → Int)
    (rows : List (List String)) :
    (((planRows absPath splitPath sizeOf rows).2).map (fun p => p.1)).Nodup :=
  planFold_keys_nodup absPath splitPath sizeOf rows ([], []) (by simp)

/-- Claim C8 amended: copy-job keys are globally unique within a plan (they
come from the keys of the path-indexed size dict); sequence-job keys are not
guaranteed unique — two groups in one directory whose sanitized prefixes,
frame ranges and lowered extensions coincide collide on the same virtual tar
path. -/
theorem c8_copy_keys_nodup (absPath : String → String)
    (splitPath : String → String × String) (sizeOf : String → Int)
    (uw : Char → Bool) (enum : List String → List String)
    (rows : List (List String)) (cfg : SeqConfig) (processed : List String)
    (henum : ∀ l, List.Perm (enum l) l) :
    (((analyze_and_plan_jobs absPath splitPath sizeOf uw enum rows cfg processed).1).map
      Job.key).Nodup := by
  have h0 : ((planRows absPath splitPath sizeOf rows).2.map (fun p => p.1)).Nodup :=
    planRows_keys_nodup _ _ _ _
  have h1 : (((planRows absPath splitPath sizeOf rows).2.map (fun p => p.1)).filter
      (fun k => !(find_sequences uw (planRows absPath splitPath sizeOf rows).1 cfg).2.contains k)).Nodup :=
    h0.filter _
  have h2 := (henum _).symm.nodup h1
  have h3 : ((planCopyAll absPath splitPath sizeOf uw enum rows cfg).map Job.key) =
      enum (((planRows absPath splitPath sizeOf rows).2.map (fun p => p.1)).filter
        (fun k => !(find_sequences uw (planRows absPath splitPath sizeOf rows).1 cfg).2.contains k)) := by
    show ((enum (((planRows absPath splitPath sizeOf rows).2.map (fun p => p.1)).filter
        (fun k => !(find_sequences uw (planRows absPath splitPath sizeOf rows).1 cfg).2.contains k))).map
      (fun f => Job.file f ((lookupA (planRows absPath splitPath sizeOf rows).2 f).getD 0))).map
        Job.key = _
    rw [List.map_map]
    have hcomp : (Job.key ∘ fun f =>
        Job.file f ((lookupA (planRows absPath splitPath sizeOf rows).2 f).getD 0)) = id :=
      funext fun f => rfl
    rw [hcomp, List.map_id]
  have h4 : ((planCopyAll absPath splitPath sizeOf uw enum rows cfg).map Job.key).Nodup :=
    h3 ▸ h2
  have h5 : List.Sublist
      (((planCopyAll absPath splitPath sizeOf uw enum rows cfg).filter
        (fun j => !processed.contains j.key)).map Job.key)
      ((planCopyAll absPath splitPath sizeOf uw enum rows cfg).map Job.key) :=
    (List.filter_sublist _).map _
  have h6 := h4.sublist h5
  have h7 : List.Perm
      ((List.insertionSort sizeGeRel ((planCopyAll absPath splitPath sizeOf uw enum rows cfg).filter
        (fun j => !processed.contains j.key))).map Job.key)
      (((planCopyAll absPath splitPath sizeOf uw enum rows cfg).filter
        (fun j => !processed.contains j.key)).map Job.key) :=
    (List.perm_insertionSort _ _).map _
  exact h7.symm.nodup h6

/-- Witness for the amended C8 theorem on the two-copy-job manifest. -/
theorem c8_copy_keys_nodup_witness :
    (((analyze_and_plan_jobs id posixSplit szC uw0 id rows6 cfg6 []).1).map Job.key).Nodup :=
  c8_copy_keys_nodup id posixSplit szC uw0 id rows6 cfg6 [] (fun l => List.Perm.refl l)

/-! ## Claim C7 -/

/-- Counterexample to claim C7: the group whose regex leading text is `a `
(trailing space) yields tar name `a.0001-0002.dpx.tar` — the code strips the
leading text before substituting — while the claim's sanitization (no
stripping, every character outside `[A-Za-z0-9_.\-]` to `_`) predicts
`a_.0001-0002.dpx.tar`. -/
theorem c7_sanitize_strips_cex :
    (find_sequences uw0 dirs7 cfg7).1.map SeqJob.tarFilename = ["a.0001-0002.dpx.tar"] ∧
    claimTarName "a " 1 2 "dpx" = "a_.0001-0002.dpx.tar" ∧
    (find_sequences uw0 dirs7 cfg7).1.map SeqJob.tarFilename ≠
      [claimTarName "a " 1 2 "dpx"] ∧
    (find_sequences uw0 dirs7 cfg7).1.map SeqJob.key = ["/d/a.0001-0002.dpx.tar"] := by
  refine ⟨rfl, rfl, by decide, rfl⟩

/-- Claim C7 amended: every emitted sequence job's key is its directory joined
with its tar name, and the tar name is
`<sanitized_prefix>.<min:04d>-<max:04d>.<ext>.tar` — where `sanitized_prefix`
is the group's leading text first stripped of surrounding whitespace, then
with every character outside Python's `\w` class, `.`, and `-` replaced by
`_` (on ASCII, `\w` is `[A-Za-z0-9_]` as the claim says). -/
theorem c7_key_join_tarname_shape (uw : Char → Bool)
    (dirs : List (String × List (String × Int))) (cfg : SeqConfig) (j : SeqJob)
    (hj : j ∈ (find_sequences uw dirs cfg).1) :
    j.key = pyJoin j.dirPath j.tarFilename ∧
    ∃ pre ext ts, cfg.minFiles ≤ ts.length ∧
      j = mkSeqJob uw j.dirPath pre ext ts ∧
      j.tarFilename = mkTarName (safePre uw pre)
        (((sortTuples ts).map (fun t => t.1)).min?.getD 0)
        (((sortTuples ts).map (fun t => t.1)).max?.getD 0) ext := by
  have hj' : j ∈ dirs.flatMap
      (fun d => (groupFiles d.1 d.2 cfg).filterMap (promoteGroup uw cfg d.1)) := hj
  rw [List.mem_flatMap] at hj'
  obtain ⟨d, _, hj2⟩ := hj'
  rw [List.mem_filterMap] at hj2
  obtain ⟨g, _, hpg⟩ := hj2
  unfold promoteGroup at hpg
  split at hpg
  · next hlen =>
    have hjeq : mkSeqJob uw d.1 g.1.1 g.1.2 g.2 = j := by injection hpg
    subst hjeq
    exact ⟨rfl, g.1.1, g.1.2, g.2, hlen, rfl, rfl⟩
  · exact absurd hpg (by simp)

/-- Witness for the amended C7 theorem at the concrete promoted job. -/
theorem c7_key_join_tarname_shape_witness :
    jobC7.key = pyJoin jobC7.dirPath jobC7.tarFilename ∧
    ∃ pre ext ts, cfg7.minFiles ≤ ts.length ∧
      jobC7 = mkSeqJob uw0 jobC7.dirPath pre ext ts ∧
      jobC7.tarFilename = mkTarName (safePre uw0 pre)
        (((sortTuples ts).map (fun t => t.1)).min?.getD 0)
        (((sortTuples ts).map (fun t => t.1)).max?.getD 0) ext :=
  c7_key_join_tarname_shape uw0 dirs7 cfg7 jobC7 (by decide)

/-! ## Claim C5 -/

/-- Specification of a successful bounded scan: the found index is the least
one satisfying the predicate within the window. -/
theorem findFirstAux_eq_some (p : Nat → Bool) :
    ∀ (fuel i j : Nat), findFirstAux p i fuel = some j →
      i ≤ j ∧ j < i + fuel ∧ p j = true ∧ ∀ m, i ≤ m → m < j → p m = false := by
  intro fuel
  induction fuel with
  | zero => intro i j h; exact absurd h (by simp [findFirstAux])
  | succ n ih =>
    intro i j h
    unfold findFirstAux at h
    by_cases hp : p i = true
    · rw [if_pos hp] at h
      have hij : i = j := by injection h
      subst hij
      refine ⟨Nat.le_refl _, by omega, hp, ?_⟩
      intro m h1 h2
      exact absurd (Nat.lt_of_le_of_lt h1 h2) (Nat.lt_irrefl i)
    · rw [if_neg hp] at h
      obtain ⟨h1, h2, h3, h4⟩ := ih (i + 1) j h
      refine ⟨by omega, by omega, h3, ?_⟩
      intro m hm1 hm2
      rcases Nat.eq_or_lt_of_le hm1 with heq | hlt
      · subst heq
        cases hb : p i
        · rfl
        · exact absurd hb hp
      · exact h4 m hlt hm2

/-- Specification of a failed bounded scan: no index in the window satisfies
the predicate. -/
theorem findFirstAux_eq_none (p : Nat → Bool) :
    ∀ (fuel i : Nat), findFirstAux p i fuel = none →
      ∀ m, i ≤ m → m < i + fuel → p m = false := by
  intro fuel
  induction fuel with
  | zero =>
    intro i h m h1 h2
    exact absurd h2 (by omega)
  | succ n ih =>
    intro i h m h1 h2
    unfold findFirstAux at h
    by_cases hp : p i = true
    · rw [if_pos hp] at h
      exact absurd h (by simp)
    · rw [if_neg hp] at h
      rcases Nat.eq_or_lt_of_le h1 with heq | hlt
      · subst heq
        cases hb : p i
        · rfl
        · exact absurd hb hp
      · exact ih (i + 1) h m hlt (by omega)

/-- findFirst returns the least index below `n` satisfying `p`. -/
theorem findFirst_some (p : Nat → Bool) (n j : Nat) (h : findFirst p n = some j) :
    j < n ∧ p j = true ∧ ∀ m, m < j → p m = false := by
  obtain ⟨_, h2, h3, h4⟩ := findFirstAux_eq_some p n 0 j h
  exact ⟨by omega, h3, fun m hm => h4 m (Nat.zero_le m) hm⟩

/-- When findFirst fails, no index below `n` satisfies `p`. -/
theorem findFirst_none (p : Nat → Bool) (n : Nat) (h : findFirst p n = none) :
    ∀ m, m < n → p m = false := by
  intro m hm
  exact findFirstAux_eq_none p n 0 h m (Nat.zero_le m) (by omega)

/-- findFirst succeeds when a suitable index exists. -/
theorem findFirst_exists (p : Nat → Bool) (n : Nat)
    (h : ∃ m, m < n ∧ p m = true) : ∃ j, findFirst p n = some j := by
  cases hf : findFirst p n with
  | some j => exact ⟨j, rfl⟩
  | none =>
    obtain ⟨m, hm, hpm⟩ := h
    exact absurd hpm (by rw [findFirst_none p n hf m hm]; simp)

/-- Every pool position is hit by the cyclic index map within one lap. -/
theorem cyclic_hit (len next k : Nat) (hlen : 0 < len) (hk : k < len) :
    ∃ i, i < len ∧ (next + i) % len = k := by
  refine ⟨(k + len - next % len) % len, Nat.mod_lt _ hlen, ?_⟩
  have hr : next % len < len := Nat.mod_lt _ hlen
  have h3 : next % len + (k + len - next % len) = k + len := by omega
  calc (next + (k + len - next % len) % len) % len
      = (next + (k + len - next % len)) % len := Nat.add_mod_mod _ _ _
    _ = (next % len + (k + len - next % len)) % len := by rw [Nat.mod_add_mod]
    _ = (k + len) % len := by rw [h3]
    _ = k % len := Nat.add_mod_right k len
    _ = k := Nat.mod_eq_of_lt hk

/-- Claim C5: under round_robin, whenever some preferred-pool volume is
suitable for the job size, the chosen volume is the first suitable one in the
cyclic scan of the pool starting at `next_disk_index`, it lies in the pool,
and `next_disk_index` advances to its successor modulo the pool size; when no
pool volume is suitable, any returned volume is the first suitable fallback
volume in linear order and `next_disk_index` is unchanged. -/
theorem c5_round_robin_two_phase (dm : DiskManager) (env : String → DiskStat)
    (sz : Int) :
    ((∃ d ∈ rrPool dm, rrSuit dm env sz d = true) →
      ∃ i, i < (rrPool dm).length ∧
        (∀ j, j < i → rrScanPred dm env sz j = false) ∧
        rrScanPred dm env sz i = true ∧
        ((rrPool dm).getD ((dm.nextDiskIndex + i) % (rrPool dm).length) "") ∈ rrPool dm ∧
        getCurrentDestinationRR dm env sz =
          some ((rrPool dm).getD ((dm.nextDiskIndex + i) % (rrPool dm).length) "",
            ((dm.nextDiskIndex + i) % (rrPool dm).length + 1) % (rrPool dm).length)) ∧
    ((∀ d ∈ rrPool dm, rrSuit dm env sz d = false) →
      ∀ d ni, getCurrentDestinationRR dm env sz = some (d, ni) →
        ni = dm.nextDiskIndex ∧
        ∃ k, k < (rrFallback dm).length ∧ d = (rrFallback dm).getD k "" ∧
          rrSuit dm env sz d = true ∧
          ∀ j, j < k → rrFbPred dm env sz j = false) := by
  constructor
  · intro hx
    obtain ⟨d, hd, hsuit⟩ := hx
    have hlen : 0 < (rrPool dm).length := List.length_pos.mpr (List.ne_nil_of_mem hd)
    obtain ⟨k, hk, hgetk⟩ := List.mem_iff_getElem.mp hd
    have hget : (rrPool dm).getD k "" = d := by
      rw [List.getD_eq_getElem _ _ hk]; exact hgetk
    obtain ⟨i0, hi0, hmod⟩ := cyclic_hit (rrPool dm).length dm.nextDiskIndex k hlen hk
    have hp0 : rrScanPred dm env sz i0 = true := by
      unfold rrScanPred
      rw [hmod, hget]
      exact hsuit
    obtain ⟨j, hj⟩ := findFirst_exists (rrScanPred dm env sz) (rrPool dm).length
      ⟨i0, hi0, hp0⟩
    obtain ⟨hjlt, hpj, hleast⟩ := findFirst_some _ _ _ hj
    have hmem : ((rrPool dm).getD ((dm.nextDiskIndex + j) % (rrPool dm).length) "") ∈
        rrPool dm := by
      have hin : (dm.nextDiskIndex + j) % (rrPool dm).length < (rrPool dm).length :=
        Nat.mod_lt _ hlen
      rw [List.getD_eq_getElem _ _ hin]
      exact List.getElem_mem hin
    refine ⟨j, hjlt, fun j' hj' => hleast j' hj', hpj, hmem, ?_⟩
    unfold getCurrentDestinationRR
    rw [if_pos (by omega : (rrPool dm).length ≠ 0), hj]
  · intro hall d ni hres
    have hnone : ∀ i, i < (rrPool dm).length → rrScanPred dm env sz i = false := by
      intro i hi
      unfold rrScanPred
      apply hall
      have hin : (dm.nextDiskIndex + i) % (rrPool dm).length < (rrPool dm).length :=
        Nat.mod_lt _ (by omega)
      rw [List.getD_eq_getElem _ _ hin]
      exact List.getElem_mem hin
    have hscan : (if (rrPool dm).length ≠ 0 then
        findFirst (rrScanPred dm env sz) (rrPool dm).length else none) = none := by
      split
      · cases hf : findFirst (rrScanPred dm env sz) (rrPool dm).length with
        | none => rfl
        | some j =>
          obtain ⟨hjlt, hpj, _⟩ := findFirst_some _ _ _ hf
          rw [hnone j hjlt] at hpj
          exact absurd hpj (by simp)
      · rfl
    unfold getCurrentDestinationRR at hres
    rw [hscan] at hres
    cases hfb : findFirst (rrFbPred dm env sz) (rrFallback dm).length with
    | none => rw [hfb] at hres; exact absurd hres (by simp)
    | some k =>
      rw [hfb] at hres
      obtain ⟨hklt, hpk, hkleast⟩ := findFirst_some _ _ _ hfb
      have hd : (rrFallback dm).getD k "" = d := by injection hres with h; exact (congrArg Prod.fst h)
      have hni : ni = dm.nextDiskIndex := by injection hres with h; exact (congrArg Prod.snd h).symm
      refine ⟨hni, k, hklt, hd.symm, ?_, fun j hjk => hkleast j hjk⟩
      rw [← hd]
      exact hpk

/-- Witness for C5 at a concrete three-mount manager: `/mnt/d1` is over
threshold so the scan picks `/mnt/d2`, the second pool entry, advancing the
index. -/
theorem c5_round_robin_witness :
    (∃ d ∈ rrPool dm0, rrSuit dm0 env0 10 d = true) ∧
    ∃ i, i < (rrPool dm0).length ∧
      (∀ j, j < i → rrScanPred dm0 env0 10 j = false) ∧
      rrScanPred dm0 env0 10 i = true ∧
      ((rrPool dm0).getD ((dm0.nextDiskIndex + i) % (rrPool dm0).length) "") ∈ rrPool dm0 ∧
      getCurrentDestinationRR dm0 env0 10 =
        some ((rrPool dm0).getD ((dm0.nextDiskIndex + i) % (rrPool dm0).length) "",
          ((dm0.nextDiskIndex + i) % (rrPool dm0).length + 1) % (rrPool dm0).length) :=
  ⟨by decide, (c5_round_robin_two_phase dm0 env0 10).1 (by decide)⟩

end Copeer
